import Mathlib

/-!
Verification development for the trpg-discord-bot dice core.

The Python sources `utils/dice.py`, `utils/coc.py`, `utils/config.py` and
`models/types.py` are shallowly embedded below.  Python machine-level details
are modelled as follows:

* Python `int` is `Int` (arbitrary precision in both).
* `random.randint(a, b)` draws from a global entropy stream; we model one draw
  as `randint a b e` for an arbitrary entropy value `e : Int`, reduced into
  `[a, b]` by Euclidean remainder, and a sequence of draws as a function from
  the draw index to the entropy used.
* Python true division `skill_value / divisor` (a float) is modelled as exact
  division in `ℚ`.  On the domains proved about here (`skill_value ≤ 100`,
  integer comparands) IEEE-754 double division is correctly rounded and the
  comparison `roll <= skill_value / divisor` never changes truth value under
  that rounding, because a flip would need `|roll - skill_value/divisor| ≤
  2⁻⁵² · skill_value / divisor` while integrality forces a gap of at least
  `1 / divisor`; hence the ℚ model is exact there.
* The regular expressions of `dice.py` are hand-compiled to deterministic
  matchers over `List Char`; the patterns involved are backtracking-free on
  stripped input (digit runs are never followed by an alternative that begins
  with a digit, whitespace runs never by one that begins with whitespace
  except in positions ruled out by the surrounding `strip()`).  Python's `\d`
  is modelled as the ASCII digits.
-/

/-- The characters Python `str.strip()` and `\s` treat as whitespace
(space, tab, newline, carriage return, vertical tab, form feed). -/
def isPySpace (c : Char) : Bool :=
  c.toNat = 32 || c.toNat = 9 || c.toNat = 10 || c.toNat = 13 || c.toNat = 11 || c.toNat = 12

/-- ASCII decimal digit test: the model of the regex class `\d`. -/
def isAsciiDigit (c : Char) : Bool :=
  48 ≤ c.toNat && c.toNat ≤ 57

/-- Python `str.strip()`: drop whitespace from both ends. -/
def pyStrip (s : List Char) : List Char :=
  ((s.dropWhile isPySpace).reverse.dropWhile isPySpace).reverse

/-- Numeric value of a run of decimal digit characters, most significant
first: the model of Python `int(...)` on a digit string. -/
def digitsToNat (ds : List Char) : Nat :=
  ds.foldl (fun a c => 10 * a + (c.toNat - 48)) 0

/-- Decimal digit characters of `n`, most significant first: the model of
Python `str(...)` on a nonnegative int. -/
def natDigits (n : Nat) : List Char :=
  if _h : n < 10 then [Nat.digitChar n]
  else natDigits (n / 10) ++ [Nat.digitChar (n % 10)]
decreasing_by omega

/-- Python `str(...)` on an arbitrary int, as a character list. -/
def pyIntChars (n : Int) : List Char :=
  if n < 0 then '-' :: natDigits n.natAbs else natDigits n.toNat

/-- Python `str(...)` on an arbitrary int. -/
def pyIntStr (n : Int) : String :=
  String.mk (pyIntChars n)

/-- Embedding of `GuildConfig` (`utils/config.py`), restricted to the rule
fields the dice core reads; the Discord channel/stream presentation fields are
outside the modelled core.  Defaults are the dataclass defaults. -/
structure GuildConfig where
  dnd_critical_success : Int := 20
  dnd_critical_fail : Int := 1
  dnd_max_dice_count : Int := 50
  dnd_max_dice_sides : Int := 1000
  coc_critical_success : Int := 1
  coc_critical_fail : Int := 100
  coc_skill_divisor_hard : Int := 2
  coc_skill_divisor_extreme : Int := 5
deriving DecidableEq

/-- The default `GuildConfig()` (all dataclass defaults). -/
def defaultGuildConfig : GuildConfig := {}

/-- Embedding of the `DiceRoll` dataclass (`models/types.py`). -/
structure DiceRoll where
  count : Int
  sides : Int
  modifier : Int
  comparison : Option (String × Int) := none
deriving DecidableEq

/-- Embedding of the `RollResult` dataclass (`models/types.py`). -/
structure RollResult where
  dice_expr : String
  rolls : List Int
  modifier : Int
  total : Int
  is_critical_success : Bool := false
  is_critical_fail : Bool := false
  comparison_result : Option Bool := none
deriving DecidableEq

/-- The error outcomes of the dice utilities.  The Python code raises
`ValueError` with distinct messages; the spec groups the raise sites into the
two kinds `InvalidExpression` (grammar mismatch) and `OutOfRange` (numeric
constraint violated), which we keep as distinct constructors carrying the
source's message. -/
inductive DiceError where
  | invalidExpression (msg : String) : DiceError
  | outOfRange (msg : String) : DiceError
deriving DecidableEq

deriving instance DecidableEq for Except

/-- The capture groups of the single-roll regex
`^(\d*)d(\d+)([+-]\d+)?(?:\s*(>=|<=|>|<)\s*(\d+))?$` of `parse_dice_expr`. -/
structure DiceMatch where
  countDigits : List Char
  sidesDigits : List Char
  modClause : Option (Char × List Char)
  compClause : Option (String × List Char)
deriving DecidableEq

/-- Reader for the regex alternation `(>=|<=|>|<)` (two-character operators
preferred, as in the pattern's alternation order). -/
def readCompOp : List Char → Option (String × List Char)
  | '>' :: '=' :: rest => some (">=", rest)
  | '<' :: '=' :: rest => some ("<=", rest)
  | '>' :: rest => some (">", rest)
  | '<' :: rest => some ("<", rest)
  | _ => none

/-- Reader for the optional modifier group `([+-]\d+)?`: take it exactly when
a sign is followed by at least one digit (otherwise the group does not match
and the input is left for the rest of the pattern). -/
def splitModClause (l : List Char) : Option (Char × List Char) × List Char :=
  match l with
  | c1 :: c2 :: r =>
    if (c1 = '+' ∨ c1 = '-') ∧ isAsciiDigit c2 = true then
      (some (c1, (c2 :: r).takeWhile isAsciiDigit), (c2 :: r).dropWhile isAsciiDigit)
    else (none, c1 :: c2 :: r)
  | _ => (none, l)

/-- Deterministic compilation of the single-roll regex
`^(\d*)d(\d+)([+-]\d+)?(?:\s*(>=|<=|>|<)\s*(\d+))?$` (`dice.py` line 14),
applied to the stripped expression. -/
def matchDiceExpr (s : List Char) : Option DiceMatch :=
  let cd := s.takeWhile isAsciiDigit
  match s.dropWhile isAsciiDigit with
  | [] => none
  | c :: rest1 =>
    if c = 'd' then
      let sd := rest1.takeWhile isAsciiDigit
      if sd.isEmpty then none
      else
        let rest2 := rest1.dropWhile isAsciiDigit
        let mc := (splitModClause rest2).1
        match (splitModClause rest2).2 with
        | [] => some ⟨cd, sd, mc, none⟩
        | c3 :: r3 =>
          match readCompOp ((c3 :: r3).dropWhile isPySpace) with
          | none => none
          | some (op, r4) =>
            let vd := (r4.dropWhile isPySpace).takeWhile isAsciiDigit
            if vd.isEmpty then none
            else if ((r4.dropWhile isPySpace).dropWhile isAsciiDigit).isEmpty then
              some ⟨cd, sd, mc, some (op, vd)⟩
            else none
    else none

/-- Embedding of `parse_dice_expr` (`utils/dice.py` lines 8-49). -/
def parse_dice_expr (expr : String) (rules : GuildConfig) : Except DiceError DiceRoll :=
  match matchDiceExpr (pyStrip expr.toList) with
  | none => .error (.invalidExpression "無效的骰子表達式格式")
  | some m =>
    let count : Int := if m.countDigits.isEmpty then 1 else (digitsToNat m.countDigits : Int)
    if count = 0 then .error (.outOfRange "骰子數量必須至少為1")
    else if rules.dnd_max_dice_count < count then
      .error (.outOfRange ("骰子數量過多 (最多 " ++ pyIntStr rules.dnd_max_dice_count ++ ")"))
    else
      let sides : Int := (digitsToNat m.sidesDigits : Int)
      if sides < 2 then .error (.outOfRange "骰子面數必須至少為2")
      else if rules.dnd_max_dice_sides < sides then
        .error (.outOfRange ("骰子面數過多 (最多 " ++ pyIntStr rules.dnd_max_dice_sides ++ ")"))
      else
        let modifier : Int :=
          match m.modClause with
          | none => 0
          | some (sign, ds) =>
            if sign = '-' then -(digitsToNat ds : Int) else (digitsToNat ds : Int)
        let comparison : Option (String × Int) :=
          m.compClause.map (fun p => (p.1, (digitsToNat p.2 : Int)))
        .ok { count := count, sides := sides, modifier := modifier, comparison := comparison }

example : parse_dice_expr "2d6+1" defaultGuildConfig =
    .ok { count := 2, sides := 6, modifier := 1, comparison := none } := by decide

example : parse_dice_expr "d20>=15" defaultGuildConfig =
    .ok { count := 1, sides := 20, modifier := 0, comparison := some (">=", 15) } := by decide

example : parse_dice_expr "0d6" defaultGuildConfig =
    .error (.outOfRange "骰子數量必須至少為1") := by decide

example : parse_dice_expr "abc" defaultGuildConfig =
    .error (.invalidExpression "無效的骰子表達式格式") := by decide

/-- Embedding of `format_dice_expr` (`utils/dice.py` lines 91-97), at the
character-list level.  Python renders with f-strings; `sign` is `"+"` for a
nonnegative modifier and `""` otherwise (`str` then supplies the `-`). -/
def formatDiceChars (dice : DiceRoll) : List Char :=
  if dice.modifier = 0 then
    pyIntChars dice.count ++ 'd' :: pyIntChars dice.sides
  else
    pyIntChars dice.count ++ 'd' :: pyIntChars dice.sides
      ++ (if 0 ≤ dice.modifier then ['+'] else []) ++ pyIntChars dice.modifier

/-- Embedding of `format_dice_expr` (`utils/dice.py` lines 91-97). -/
def format_dice_expr (dice : DiceRoll) : String :=
  String.mk (formatDiceChars dice)

/-- Model of `random.randint lo hi`: one draw from the entropy stream, reduced
into `[lo, hi]` by the (nonnegative) Euclidean remainder. -/
def randint (lo hi : Int) (entropy : Int) : Int :=
  lo + entropy % (hi - lo + 1)

/-- Embedding of `roll_single_dice` (`utils/dice.py` lines 52-54). -/
def roll_single_dice (sides : Int) (entropy : Int) : Int :=
  randint 1 sides entropy

/-- Embedding of `roll_dice` (`utils/dice.py` lines 57-88).  The global RNG is
modelled by `g`, mapping the index of a draw within this call to the entropy
it consumes; the list comprehension draws in index order. -/
def roll_dice (dice : DiceRoll) (g : Nat → Int) : RollResult :=
  let rolls := (List.range dice.count.toNat).map (fun i => roll_single_dice dice.sides (g i))
  let total := rolls.sum + dice.modifier
  let comparison_result : Option Bool :=
    match dice.comparison with
    | none => none
    | some (op, value) =>
      if op = ">=" then some (decide (total ≥ value))
      else if op = ">" then some (decide (total > value))
      else if op = "<=" then some (decide (total ≤ value))
      else if op = "<" then some (decide (total < value))
      else none
  { dice_expr := format_dice_expr dice
    rolls := rolls
    modifier := dice.modifier
    total := total
    is_critical_success := dice.sides == 20 && rolls.contains 20
    is_critical_fail := dice.sides == 20 && rolls.contains 1
    comparison_result := comparison_result }

/-- Deterministic compilation of the multi-roll wrapper regex
`^(?:\+)?(\d+)\s+(.+)$` (`dice.py` line 105), applied to the stripped
expression; returns the two capture groups.  On stripped input the string
never ends in whitespace, so the greedy `\s+`/`(.+)` split is exactly
"maximal whitespace run, then the nonempty rest", which must be newline-free
for `.` to cover it (the remainder of an all-whitespace tail cannot arise
post-strip, and is mapped to no-match). -/
def matchMultiRoll (s : List Char) : Option (List Char × List Char) :=
  let s1 := match s with
    | '+' :: t => t
    | _ => s
  let ds := s1.takeWhile isAsciiDigit
  if ds.isEmpty then none
  else
    match s1.dropWhile isAsciiDigit with
    | [] => none
    | c :: r =>
      if isPySpace c then
        let t := (c :: r).dropWhile isPySpace
        if t.isEmpty ∨ t.contains '\n' then none
        else some (ds, t)
      else none

/-- Embedding of `roll_multiple_dice` (`utils/dice.py` lines 100-124).  The
entropy family `g` gives evaluation `i` its own draw stream `g i`, modelling
the independent consecutive segments the evaluations read from the global
RNG. -/
def roll_multiple_dice (expr : String) (max_rolls : Int) (rules : GuildConfig)
    (g : Nat → Nat → Int) : Except DiceError (List RollResult) :=
  match matchMultiRoll (pyStrip expr.toList) with
  | some (ds, rest) =>
    let count : Int := (digitsToNat ds : Int)
    if count = 0 then .error (.outOfRange "擲骰次數必須至少為1")
    else if max_rolls < count then
      .error (.outOfRange ("擲骰次數過多 (最多 " ++ pyIntStr max_rolls ++ ")"))
    else
      match parse_dice_expr (String.mk (pyStrip rest)) rules with
      | .error e => .error e
      | .ok parsed => .ok ((List.range count.toNat).map (fun i => roll_dice parsed (g i)))
  | none =>
    match parse_dice_expr expr rules with
    | .error e => .error e
    | .ok parsed => .ok [roll_dice parsed (g 0)]

/-- Embedding of `is_critical_failure` (`utils/coc.py` lines 63-72). -/
def is_critical_failure (roll skill_value : Int) (rules : GuildConfig) : Bool :=
  if skill_value < 50 then decide (96 ≤ roll) else decide (roll = rules.coc_critical_fail)

/-- Embedding of `determine_success_level` (`utils/coc.py` lines 39-60).
The two thresholds are Python true divisions; they are modelled in `ℚ`
(see the header comment on float rounding). -/
def determine_success_level (roll skill_value : Int) (rules : GuildConfig) : Int :=
  if roll = rules.coc_critical_success then 1
  else if is_critical_failure roll skill_value rules then 6
  else
    let hard_success_threshold : ℚ := (skill_value : ℚ) / (rules.coc_skill_divisor_hard : ℚ)
    let extreme_success_threshold : ℚ := (skill_value : ℚ) / (rules.coc_skill_divisor_extreme : ℚ)
    if roll = 100 ∨ (roll : ℚ) ≤ extreme_success_threshold then 2
    else if (roll : ℚ) ≤ hard_success_threshold then 3
    else if roll ≤ skill_value then 4
    else 5

/-- The six CoC success tiers, named as in the spec and in
`format_success_level`. -/
inductive CocTier where
  | CriticalSuccess
  | ExtremeSuccess
  | HardSuccess
  | RegularSuccess
  | Failure
  | CriticalFailure
deriving DecidableEq

/-- The level-number-to-tier mapping encoded by `format_success_level`
(`utils/coc.py` lines 75-87); numbers outside 1..6 map to the "Unknown"
label, modelled as `none`. -/
def tierOfLevel (level : Int) : Option CocTier :=
  if level = 1 then some .CriticalSuccess
  else if level = 2 then some .ExtremeSuccess
  else if level = 3 then some .HardSuccess
  else if level = 4 then some .RegularSuccess
  else if level = 5 then some .Failure
  else if level = 6 then some .CriticalFailure
  else none

/-- Embedding of `roll_coc` (`utils/coc.py` lines 6-28); `entropy` is the one
draw taken from the global RNG. -/
def roll_coc (skill_value : Int) (rules : GuildConfig) (entropy : Int) : RollResult :=
  let roll := randint 1 100 entropy
  let success_level := determine_success_level roll skill_value rules
  { dice_expr := "d100<=" ++ pyIntStr skill_value
    rolls := [roll]
    modifier := 0
    total := roll
    is_critical_success := roll == rules.coc_critical_success
    is_critical_fail := is_critical_failure roll skill_value rules
    comparison_result := some (decide (success_level ≤ 4)) }

/-- Embedding of `roll_coc_multi` (`utils/coc.py` lines 31-36); draw `i` uses
entropy `g i`. -/
def roll_coc_multi (skill_value times : Int) (rules : GuildConfig) (g : Nat → Int) :
    List RollResult :=
  let count := max 1 times
  (List.range count.toNat).map (fun i => roll_coc skill_value rules (g i))

example : determine_success_level 10 50 defaultGuildConfig = 2 := by
  norm_num [determine_success_level, is_critical_failure, defaultGuildConfig]

example : determine_success_level 50 50 defaultGuildConfig = 4 := by
  norm_num [determine_success_level, is_critical_failure, defaultGuildConfig]

example : determine_success_level 100 60 defaultGuildConfig = 6 := by decide

example : (roll_dice { count := 2, sides := 6, modifier := 1, comparison := none }
    (fun i => (i : Int))).rolls = [1, 2] := by decide

/-- An integer is below a rational quotient exactly when it is below the
floor, i.e. the Euclidean quotient, for a positive divisor.  This bridges the
source's true-division thresholds to the spec's `floor(skillValue/divisor)`
wording. -/
lemma intCast_le_div_iff_ediv (a b c : Int) (hc : 0 < c) :
    ((a : ℚ) ≤ (b : ℚ) / (c : ℚ)) ↔ a ≤ b / c := by
  rw [le_div_iff₀ (by exact_mod_cast hc : (0 : ℚ) < (c : ℚ)), Int.le_ediv_iff_mul_le hc]
  exact_mod_cast Iff.rfl

/-- Classification following the spec's words (the refinement target for the
claim about `determine_success_level`): strict priority order with the
critical-failure test written out and the hard/extreme thresholds taken as
`floor(skillValue / divisor)` — for a positive divisor, Int division `/` is
exactly that floor. -/
def cocTierSpec (roll skill_value : Int) (rules : GuildConfig) : CocTier :=
  if roll = rules.coc_critical_success then .CriticalSuccess
  else if (if skill_value < 50 then 96 ≤ roll else roll = rules.coc_critical_fail) then
    .CriticalFailure
  else if roll = 100 ∨ roll ≤ skill_value / rules.coc_skill_divisor_extreme then .ExtremeSuccess
  else if roll ≤ skill_value / rules.coc_skill_divisor_hard then .HardSuccess
  else if roll ≤ skill_value then .RegularSuccess
  else .Failure

/-- C1: for every roll and skill value in `[1,100]` and every configuration
with positive hard and extreme divisors, `determine_success_level` (read
through the tier naming of `format_success_level`) returns exactly the first
matching tier of the spec's priority order: critical success on
`roll == cocCriticalSuccess`; then the asymmetric critical-failure test
(`roll ≥ 96` when `skillValue < 50`, else `roll == cocCriticalFail`); then
extreme success on `roll == 100` or `roll ≤ floor(skillValue/extremeDivisor)`;
then hard success on `roll ≤ floor(skillValue/hardDivisor)`; then regular
success on `roll ≤ skillValue`; else failure. -/
theorem determine_success_level_refines_spec (roll skill_value : Int) (rules : GuildConfig)
    (hr1 : 1 ≤ roll) (hr2 : roll ≤ 100) (hs1 : 1 ≤ skill_value) (hs2 : skill_value ≤ 100)
    (hh : 0 < rules.coc_skill_divisor_hard) (he : 0 < rules.coc_skill_divisor_extreme) :
    tierOfLevel (determine_success_level roll skill_value rules) =
      some (cocTierSpec roll skill_value rules) := by
  unfold determine_success_level cocTierSpec is_critical_failure
  simp only [intCast_le_div_iff_ediv _ _ _ he, intCast_le_div_iff_ediv _ _ _ hh,
    apply_ite (fun b : Bool => b = true), decide_eq_true_eq]
  split_ifs <;> decide

/-- Witness for C1 at `roll = 10`, `skill = 50`, default configuration. -/
theorem determine_success_level_refines_spec_witness :
    tierOfLevel (determine_success_level 10 50 defaultGuildConfig) =
      some (cocTierSpec 10 50 defaultGuildConfig) :=
  determine_success_level_refines_spec 10 50 defaultGuildConfig (by decide) (by decide)
    (by decide) (by decide) (by decide) (by decide)

/-- C4 counterexample: the claim states `ClassifyCoc(10, 50, default) =
HardSuccess`, but the extreme-success check fires first: `10 ≤ floor(50/5)`,
so the code classifies the roll as ExtremeSuccess, not HardSuccess. -/
theorem classify_coc_ten_fifty_not_hard :
    tierOfLevel (determine_success_level 10 50 defaultGuildConfig) ≠
      some CocTier.HardSuccess := by
  have h2 : determine_success_level 10 50 defaultGuildConfig = 2 := by
    norm_num [determine_success_level, is_critical_failure, defaultGuildConfig]
  rw [h2]
  decide

/-- C5: ground behaviour of the expression parser: `2d6+1` and `d20>=15`
parse to the expected specifications (absent count defaults to 1, absent
modifier to 0), while `0d6` and `d1` are rejected as out of range and `abc`
as an invalid expression, the two error kinds being distinct constructors of
`DiceError`. -/
theorem parse_dice_expr_ground_instances :
    parse_dice_expr "2d6+1" defaultGuildConfig =
      .ok { count := 2, sides := 6, modifier := 1, comparison := none } ∧
    parse_dice_expr "d20>=15" defaultGuildConfig =
      .ok { count := 1, sides := 20, modifier := 0, comparison := some (">=", 15) } ∧
    parse_dice_expr "0d6" defaultGuildConfig =
      .error (.outOfRange "骰子數量必須至少為1") ∧
    parse_dice_expr "d1" defaultGuildConfig =
      .error (.outOfRange "骰子面數必須至少為2") ∧
    parse_dice_expr "abc" defaultGuildConfig =
      .error (.invalidExpression "無效的骰子表達式格式") := by
  decide

/-- C10: the two critical flags are not mutually exclusive: a 2d20 roll whose
draws come out as 20 and 1 (entropy 19 then 0) reports both a critical
success and a critical failure, because each flag only asks whether its
trigger value occurs among the rolls. -/
theorem roll_dice_both_crit_flags :
    (roll_dice { count := 2, sides := 20, modifier := 0, comparison := none }
        (fun i => if i = 0 then 19 else 0)).rolls = [20, 1] ∧
    (roll_dice { count := 2, sides := 20, modifier := 0, comparison := none }
        (fun i => if i = 0 then 19 else 0)).is_critical_success = true ∧
    (roll_dice { count := 2, sides := 20, modifier := 0, comparison := none }
        (fun i => if i = 0 then 19 else 0)).is_critical_fail = true := by
  decide

/-- A configuration whose D&D critical-success value is 5 rather than the
default 20. -/
def cfgCrit5 : GuildConfig := { dnd_critical_success := 5 }

/-- C2 counterexample: with `dnd_critical_success = 5`, a d20 that rolls a 20
still sets `isCriticalSuccess` (the evaluator compares against the literal
20), though no rolled die equals the configured critical-success value — the
claim's "equals the configured value" biconditional fails. -/
theorem roll_dice_crit_config_counterexample :
    ¬ ((roll_dice { count := 1, sides := 20, modifier := 0, comparison := none }
          (fun _ => 19)).is_critical_success = true ↔
        (({ count := 1, sides := 20, modifier := 0, comparison := none } : DiceRoll).sides = 20 ∧
          (roll_dice { count := 1, sides := 20, modifier := 0, comparison := none }
            (fun _ => 19)).rolls.contains cfgCrit5.dnd_critical_success = true)) := by
  decide

/-- C2 (amended): the critical flags compare the rolls against the literal
values 20 and 1 — `roll_dice` takes no configuration and the
`dnd_critical_success` / `dnd_critical_fail` fields are never consulted;
in particular, for every specification with `sides ≠ 20` both flags are
false regardless of the rolled values. -/
theorem roll_dice_crit_flags_fixed_values (dice : DiceRoll) (g : Nat → Int) :
    (roll_dice dice g).is_critical_success =
      ((dice.sides == 20) && (roll_dice dice g).rolls.contains 20) ∧
    (roll_dice dice g).is_critical_fail =
      ((dice.sides == 20) && (roll_dice dice g).rolls.contains 1) ∧
    (dice.sides ≠ 20 →
      (roll_dice dice g).is_critical_success = false ∧
      (roll_dice dice g).is_critical_fail = false) := by
  refine ⟨rfl, rfl, fun h => ?_⟩
  have hb : (dice.sides == 20) = false := beq_eq_false_iff_ne.mpr h
  constructor <;> simp [roll_dice, hb]

/-- Witness for C2's amended theorem: a d6 roll has both flags false. -/
theorem roll_dice_crit_flags_fixed_values_witness :
    (roll_dice { count := 1, sides := 6, modifier := 0, comparison := none }
        (fun _ => 0)).is_critical_success = false ∧
    (roll_dice { count := 1, sides := 6, modifier := 0, comparison := none }
        (fun _ => 0)).is_critical_fail = false :=
  (roll_dice_crit_flags_fixed_values
      { count := 1, sides := 6, modifier := 0, comparison := none } (fun _ => 0)).2.2
    (by decide)

/-- One draw of `roll_single_dice` on a die with at least one side lies in
`[1, sides]`, whatever entropy the RNG supplies. -/
lemma roll_single_dice_bounds (sides e : Int) (h : 1 ≤ sides) :
    1 ≤ roll_single_dice sides e ∧ roll_single_dice sides e ≤ sides := by
  unfold roll_single_dice randint
  have hmod : sides - 1 + 1 = sides := by ring
  rw [hmod]
  have h1 := Int.emod_nonneg e (by omega : sides ≠ 0)
  have h2 := Int.emod_lt_of_pos e (by omega : 0 < sides)
  omega

/-- C3: for every valid specification (`count ≥ 1`, `sides ≥ 2`, any
modifier) and every random source, `roll_dice` returns exactly `count` rolls,
each in `[1, sides]`, the `i`-th roll being the one produced by the `i`-th
draw, and `total = sum(rolls) + modifier`. -/
theorem roll_dice_shape (dice : DiceRoll) (g : Nat → Int)
    (hc : 1 ≤ dice.count) (hs : 2 ≤ dice.sides) :
    (((roll_dice dice g).rolls.length : Int) = dice.count) ∧
    (∀ r ∈ (roll_dice dice g).rolls, 1 ≤ r ∧ r ≤ dice.sides) ∧
    (∀ i (h : i < (roll_dice dice g).rolls.length),
      (roll_dice dice g).rolls.get ⟨i, h⟩ = roll_single_dice dice.sides (g i)) ∧
    (roll_dice dice g).total = (roll_dice dice g).rolls.sum + dice.modifier := by
  have hrolls : (roll_dice dice g).rolls =
      (List.range dice.count.toNat).map (fun i => roll_single_dice dice.sides (g i)) := rfl
  refine ⟨?_, ?_, ?_, rfl⟩
  · rw [hrolls]
    simp only [List.length_map, List.length_range]
    omega
  · intro r hr
    rw [hrolls] at hr
    rcases List.mem_map.mp hr with ⟨i, _, rfl⟩
    exact roll_single_dice_bounds dice.sides (g i) (by omega)
  · intro i h
    simp only [hrolls, List.get_eq_getElem, List.getElem_map, List.getElem_range]

/-- Witness for C3 at 2d6+1 with the identity entropy stream. -/
theorem roll_dice_shape_witness :
    (((roll_dice { count := 2, sides := 6, modifier := 1, comparison := none }
        (fun i => (i : Int))).rolls.length : Int) = 2) ∧
    (roll_dice { count := 2, sides := 6, modifier := 1, comparison := none }
        (fun i => (i : Int))).total =
      (roll_dice { count := 2, sides := 6, modifier := 1, comparison := none }
        (fun i => (i : Int))).rolls.sum + 1 :=
  ⟨(roll_dice_shape { count := 2, sides := 6, modifier := 1, comparison := none }
      (fun i => (i : Int)) (by decide) (by decide)).1,
   (roll_dice_shape { count := 2, sides := 6, modifier := 1, comparison := none }
      (fun i => (i : Int)) (by decide) (by decide)).2.2.2⟩

/-- C8: the tri-state comparison result: with no comparison the result is the
distinct not-applicable value `none` (different from `some true` and
`some false`); with a comparison present it is `some` of the boolean value of
`total <op> threshold` for each of the four operators. -/
theorem roll_dice_comparison_semantics (dice : DiceRoll) (g : Nat → Int) :
    (dice.comparison = none → (roll_dice dice g).comparison_result = none) ∧
    (∀ v : Int, dice.comparison = some (">=", v) →
      (roll_dice dice g).comparison_result = some (decide ((roll_dice dice g).total ≥ v))) ∧
    (∀ v : Int, dice.comparison = some (">", v) →
      (roll_dice dice g).comparison_result = some (decide ((roll_dice dice g).total > v))) ∧
    (∀ v : Int, dice.comparison = some ("<=", v) →
      (roll_dice dice g).comparison_result = some (decide ((roll_dice dice g).total ≤ v))) ∧
    (∀ v : Int, dice.comparison = some ("<", v) →
      (roll_dice dice g).comparison_result = some (decide ((roll_dice dice g).total < v))) ∧
    ((none : Option Bool) ≠ some true ∧ (none : Option Bool) ≠ some false) := by
  refine ⟨fun h => ?_, fun v h => ?_, fun v h => ?_, fun v h => ?_, fun v h => ?_, by decide⟩ <;>
    simp [roll_dice, h]

/-- Witness for C8: a d20 check against 15 with entropy 0 (roll 1). -/
theorem roll_dice_comparison_semantics_witness :
    (roll_dice { count := 1, sides := 20, modifier := 0, comparison := some (">=", 15) }
        (fun _ => 0)).comparison_result =
      some (decide ((roll_dice
        { count := 1, sides := 20, modifier := 0, comparison := some (">=", 15) }
        (fun _ => 0)).total ≥ 15)) :=
  (roll_dice_comparison_semantics
      { count := 1, sides := 20, modifier := 0, comparison := some (">=", 15) }
      (fun _ => 0)).2.1 15 rfl

/-- C7 counterexample: `roll_coc_multi` cannot fail — it clamps the repeat
count from below with `max(1, times)` and enforces no upper bound: `times=0`
(outside `[1,10]`) yields one outcome rather than an OutOfRange error, and
`times=11` yields eleven outcomes. -/
theorem roll_coc_multi_no_range_error :
    (roll_coc_multi 50 0 defaultGuildConfig (fun _ => 0)).length = 1 ∧
    (roll_coc_multi 50 11 defaultGuildConfig (fun _ => 0)).length = 11 := by
  constructor <;> simp [roll_coc_multi]

/-- C7 (amended): `roll_coc_multi` never returns an error: it produces
exactly `max 1 times` outcomes (so `times ≤ 0` is clamped to one outcome and
large `times` is not capped), the `i`-th being an independent `roll_coc`
percentile draw, whose single roll always lies in `[1, 100]`.  The `[1,10]`
restriction on `times` lives in the Discord command layer
(`commands.Range[int, 1, 10]`), not in this function. -/
theorem roll_coc_multi_clamped_shape (skill_value times : Int) (rules : GuildConfig)
    (g : Nat → Int) :
    (((roll_coc_multi skill_value times rules g).length : Int) = max 1 times) ∧
    (∀ i (h : i < (roll_coc_multi skill_value times rules g).length),
      (roll_coc_multi skill_value times rules g).get ⟨i, h⟩ =
        roll_coc skill_value rules (g i)) ∧
    (∀ e : Int, (roll_coc skill_value rules e).rolls = [randint 1 100 e] ∧
      (roll_coc skill_value rules e).total = randint 1 100 e ∧
      1 ≤ randint 1 100 e ∧ randint 1 100 e ≤ 100) := by
  refine ⟨?_, ?_, fun e => ⟨rfl, rfl, ?_⟩⟩
  · simp only [roll_coc_multi, List.length_map, List.length_range]
    have : 1 ≤ max 1 times := le_max_left 1 times
    omega
  · intro i h
    simp only [roll_coc_multi, List.get_eq_getElem, List.getElem_map, List.getElem_range]
  · unfold randint
    have h1 := Int.emod_nonneg e (by omega : (100 : Int) - 1 + 1 ≠ 0)
    have h2 := Int.emod_lt_of_pos e (by omega : 0 < (100 : Int) - 1 + 1)
    omega

/-- Witness for C7's amended theorem: skill 50, three repeats. -/
theorem roll_coc_multi_clamped_shape_witness :
    (((roll_coc_multi 50 3 defaultGuildConfig (fun _ => 0)).length : Int) = max 1 3) ∧
    (roll_coc 50 defaultGuildConfig 0).rolls = [randint 1 100 0] ∧
    1 ≤ randint 1 100 0 ∧ randint 1 100 0 ≤ 100 :=
  ⟨(roll_coc_multi_clamped_shape 50 3 defaultGuildConfig (fun _ => 0)).1,
   (roll_coc_multi_clamped_shape 50 3 defaultGuildConfig (fun _ => 0)).2.2 0 |>.1,
   (roll_coc_multi_clamped_shape 50 3 defaultGuildConfig (fun _ => 0)).2.2 0 |>.2.2⟩

/-- C4 (amended): the default-configuration ground instances, with
`ClassifyCoc(10, 50)` corrected from HardSuccess to ExtremeSuccess (10 is
within the extreme threshold `floor(50/5) = 10`, which is checked before the
hard threshold). -/
theorem classify_coc_ground_instances :
    tierOfLevel (determine_success_level 1 30 defaultGuildConfig) = some CocTier.CriticalSuccess ∧
    tierOfLevel (determine_success_level 97 40 defaultGuildConfig) = some CocTier.CriticalFailure ∧
    tierOfLevel (determine_success_level 100 60 defaultGuildConfig) = some CocTier.CriticalFailure ∧
    tierOfLevel (determine_success_level 50 50 defaultGuildConfig) = some CocTier.RegularSuccess ∧
    tierOfLevel (determine_success_level 10 50 defaultGuildConfig) = some CocTier.ExtremeSuccess := by
  refine ⟨?_, ?_, ?_, ?_, ?_⟩ <;>
    norm_num [determine_success_level, is_critical_failure, defaultGuildConfig, tierOfLevel]

/-- C6: behaviour of the multi-roll wrapper: when the stripped expression
matches `^(?:\+)?(\d+)\s+(.+)$` (digit group `ds`, remainder group `rest`),
a repeat count of zero or above the caller's bound fails with OutOfRange,
and otherwise the result is the repeat-count-many independent evaluations of
the one parsed specification (evaluation `i` reading its own entropy stream
`g i`); when the wrapper does not match, the whole string is treated as a
single-roll expression and a one-element list is produced. -/
theorem roll_multiple_dice_wrapper_behavior (expr : String) (max_rolls : Int)
    (rules : GuildConfig) (g : Nat → Nat → Int) :
    (∀ ds rest, matchMultiRoll (pyStrip expr.toList) = some (ds, rest) →
      (((digitsToNat ds : Int) = 0 ∨ max_rolls < (digitsToNat ds : Int)) →
        ∃ msg, roll_multiple_dice expr max_rolls rules g = .error (.outOfRange msg)) ∧
      ((digitsToNat ds : Int) ≠ 0 → ¬ max_rolls < (digitsToNat ds : Int) →
        roll_multiple_dice expr max_rolls rules g =
          (parse_dice_expr (String.mk (pyStrip rest)) rules).map
            (fun parsed => (List.range (digitsToNat ds)).map
              (fun i => roll_dice parsed (g i))))) ∧
    (matchMultiRoll (pyStrip expr.toList) = none →
      roll_multiple_dice expr max_rolls rules g =
        (parse_dice_expr expr rules).map (fun parsed => [roll_dice parsed (g 0)])) := by
  constructor
  · intro ds rest hm
    constructor
    · intro h0
      simp only [roll_multiple_dice, hm]
      by_cases hz : (digitsToNat ds : Int) = 0
      · rw [if_pos hz]
        exact ⟨_, rfl⟩
      · rw [if_neg hz, if_pos (h0.resolve_left hz)]
        exact ⟨_, rfl⟩
    · intro h0 h1
      simp only [roll_multiple_dice, hm]
      rw [if_neg h0, if_neg h1]
      cases hp : parse_dice_expr (String.mk (pyStrip rest)) rules with
      | error e => simp [Except.map]
      | ok parsed => simp [Except.map]
  · intro hm
    unfold roll_multiple_dice
    rw [hm]
    cases hp : parse_dice_expr expr rules with
    | error e => simp [Except.map]
    | ok parsed => simp [Except.map]

/-- Witness for C6: the wrapper expression `+3 d6` with bound 10 produces the
three independent evaluations of `d6`. -/
theorem roll_multiple_dice_wrapper_behavior_witness :
    roll_multiple_dice "+3 d6" 10 defaultGuildConfig (fun _ _ => 0) =
      (parse_dice_expr (String.mk (pyStrip ['d', '6'])) defaultGuildConfig).map
        (fun parsed => (List.range (digitsToNat ['3'])).map
          (fun i => roll_dice parsed (fun _ => (0 : Int)))) :=
  ((roll_multiple_dice_wrapper_behavior "+3 d6" 10 defaultGuildConfig (fun _ _ => 0)).1
    ['3'] ['d', '6'] (by decide)).2 (by decide) (by decide)

/-- For a digit position below ten, `Nat.digitChar` produces an ASCII digit. -/
lemma isAsciiDigit_digitChar (k : Nat) (h : k < 10) :
    isAsciiDigit (Nat.digitChar k) = true := by
  interval_cases k <;> decide

/-- Reading a rendered digit back recovers its value. -/
lemma digitChar_toNat_sub (k : Nat) (h : k < 10) : (Nat.digitChar k).toNat - 48 = k := by
  interval_cases k <;> decide

lemma digitsToNat_append_digit (xs : List Char) (c : Char) :
    digitsToNat (xs ++ [c]) = 10 * digitsToNat xs + (c.toNat - 48) := by
  simp [digitsToNat, List.foldl_append]

/-- The decimal rendering of `n` consists of ASCII digits, is nonempty, and
parses back to `n`. -/
lemma natDigits_spec (n : Nat) :
    (∀ c ∈ natDigits n, isAsciiDigit c = true) ∧ natDigits n ≠ [] ∧
      digitsToNat (natDigits n) = n := by
  induction n using Nat.strong_induction_on with
  | _ n ih =>
    by_cases h : n < 10
    · rw [natDigits, dif_pos h]
      refine ⟨?_, by simp, ?_⟩
      · intro c hc
        rw [List.mem_singleton] at hc
        subst hc
        exact isAsciiDigit_digitChar n h
      · simp [digitsToNat, digitChar_toNat_sub n h]
    · rw [natDigits, dif_neg h]
      obtain ⟨ih1, ih2, ih3⟩ := ih (n / 10) (by omega)
      refine ⟨?_, by simp, ?_⟩
      · intro c hc
        rcases List.mem_append.mp hc with hc | hc
        · exact ih1 c hc
        · rw [List.mem_singleton] at hc
          subst hc
          exact isAsciiDigit_digitChar (n % 10) (by omega)
      · rw [digitsToNat_append_digit, ih3, digitChar_toNat_sub (n % 10) (by omega)]
        omega

lemma takeWhile_append_all {p : Char → Bool} (l r : List Char)
    (h : ∀ c ∈ l, p c = true) : (l ++ r).takeWhile p = l ++ r.takeWhile p := by
  induction l with
  | nil => rfl
  | cons c t ihl =>
    rw [List.cons_append, List.takeWhile_cons_of_pos (h c (by simp)),
      ihl (fun x hx => h x (by simp [hx])), List.cons_append]

lemma dropWhile_append_all {p : Char → Bool} (l r : List Char)
    (h : ∀ c ∈ l, p c = true) : (l ++ r).dropWhile p = r.dropWhile p := by
  induction l with
  | nil => rfl
  | cons c t ihl =>
    rw [List.cons_append, List.dropWhile_cons_of_pos (h c (by simp))]
    exact ihl (fun x hx => h x (by simp [hx]))

lemma takeWhile_all {p : Char → Bool} (l : List Char) (h : ∀ c ∈ l, p c = true) :
    l.takeWhile p = l := by
  have h2 := takeWhile_append_all l [] h
  simpa using h2

lemma dropWhile_all {p : Char → Bool} (l : List Char) (h : ∀ c ∈ l, p c = true) :
    l.dropWhile p = [] := by
  have h2 := dropWhile_append_all l [] h
  simpa using h2

lemma dropWhile_eq_self_of_all {p : Char → Bool} (l : List Char)
    (h : ∀ c ∈ l, p c = false) : l.dropWhile p = l := by
  cases l with
  | nil => rfl
  | cons c t => exact List.dropWhile_cons_of_neg (by simp [h c (List.mem_cons_self c t)])

/-- `strip()` leaves a string with no whitespace characters unchanged. -/
lemma pyStrip_no_space (l : List Char) (h : ∀ c ∈ l, isPySpace c = false) :
    pyStrip l = l := by
  unfold pyStrip
  rw [dropWhile_eq_self_of_all l h,
    dropWhile_eq_self_of_all l.reverse (fun c hc => h c (List.mem_reverse.mp hc)),
    List.reverse_reverse]

lemma not_space_of_digit (c : Char) (h : isAsciiDigit c = true) : isPySpace c = false := by
  simp only [isAsciiDigit, Bool.and_eq_true, decide_eq_true_eq] at h
  simp only [isPySpace, Bool.or_eq_false_iff, decide_eq_false_iff_not]
  omega

/-- The single-roll matcher on a rendered `countDigits ++ d ++ sidesDigits`
expression with no modifier clause. -/
lemma matchDiceExpr_render_nomod (A B : List Char)
    (hA : ∀ c ∈ A, isAsciiDigit c = true)
    (hB : ∀ c ∈ B, isAsciiDigit c = true) (hBne : B ≠ []) :
    matchDiceExpr (A ++ 'd' :: B) = some ⟨A, B, none, none⟩ := by
  have h1 : (A ++ 'd' :: B).takeWhile isAsciiDigit = A := by
    rw [takeWhile_append_all A _ hA, List.takeWhile_cons_of_neg (by decide)]
    simp
  have h2 : (A ++ 'd' :: B).dropWhile isAsciiDigit = 'd' :: B := by
    rw [dropWhile_append_all A _ hA, List.dropWhile_cons_of_neg (by decide)]
  have hBe : B.isEmpty = false := by
    cases B with
    | nil => exact absurd rfl hBne
    | cons x t => rfl
  simp [matchDiceExpr, h1, h2, takeWhile_all B hB, dropWhile_all B hB, hBe, splitModClause]

/-- The single-roll matcher on a rendered expression carrying a sign-and-digits
modifier clause. -/
lemma matchDiceExpr_render_mod (A B D : List Char) (sign : Char)
    (hA : ∀ c ∈ A, isAsciiDigit c = true)
    (hB : ∀ c ∈ B, isAsciiDigit c = true) (hBne : B ≠ [])
    (hsign : sign = '+' ∨ sign = '-')
    (hD : ∀ c ∈ D, isAsciiDigit c = true) (hDne : D ≠ []) :
    matchDiceExpr (A ++ 'd' :: (B ++ sign :: D)) = some ⟨A, B, some (sign, D), none⟩ := by
  have hsd : isAsciiDigit sign = false := by
    rcases hsign with h | h <;> subst h <;> decide
  have h1 : (A ++ 'd' :: (B ++ sign :: D)).takeWhile isAsciiDigit = A := by
    rw [takeWhile_append_all A _ hA, List.takeWhile_cons_of_neg (by decide)]
    simp
  have h2 : (A ++ 'd' :: (B ++ sign :: D)).dropWhile isAsciiDigit = 'd' :: (B ++ sign :: D) := by
    rw [dropWhile_append_all A _ hA, List.dropWhile_cons_of_neg (by decide)]
  have h3 : (B ++ sign :: D).takeWhile isAsciiDigit = B := by
    rw [takeWhile_append_all B _ hB, List.takeWhile_cons_of_neg (by simp [hsd])]
    simp
  have h4 : (B ++ sign :: D).dropWhile isAsciiDigit = sign :: D := by
    rw [dropWhile_append_all B _ hB, List.dropWhile_cons_of_neg (by simp [hsd])]
  obtain ⟨d1, dr, rfl⟩ : ∃ d1 dr, D = d1 :: dr := by
    cases D with
    | nil => exact absurd rfl hDne
    | cons d1 dr => exact ⟨d1, dr, rfl⟩
  have h5 : splitModClause (sign :: d1 :: dr) = (some (sign, d1 :: dr), []) := by
    simp only [splitModClause]
    rw [if_pos ⟨hsign, hD d1 (by simp)⟩, takeWhile_all _ hD, dropWhile_all _ hD]
  have hBe : B.isEmpty = false := by
    cases B with
    | nil => exact absurd rfl hBne
    | cons x t => rfl
  simp [matchDiceExpr, h1, h2, h3, h4, h5, hBe]

lemma pyIntChars_nonneg (n : Int) (h : 0 ≤ n) : pyIntChars n = natDigits n.toNat := by
  unfold pyIntChars
  rw [if_neg (by omega)]

lemma pyIntChars_neg (n : Int) (h : n < 0) : pyIntChars n = '-' :: natDigits n.natAbs := by
  unfold pyIntChars
  rw [if_pos h]

/-- C9: for every specification within the configured caps (`1 ≤ count ≤
maxDiceCount`, `2 ≤ sides ≤ maxDiceSides`, any integer modifier), re-parsing
the canonical rendering succeeds and returns the same specification with the
comparison field cleared. -/
theorem parse_format_round_trip (d : DiceRoll) (rules : GuildConfig)
    (hc1 : 1 ≤ d.count) (hc2 : d.count ≤ rules.dnd_max_dice_count)
    (hs1 : 2 ≤ d.sides) (hs2 : d.sides ≤ rules.dnd_max_dice_sides) :
    parse_dice_expr (format_dice_expr d) rules =
      .ok { count := d.count, sides := d.sides, modifier := d.modifier, comparison := none } := by
  obtain ⟨hAall, hAne, hAval⟩ := natDigits_spec d.count.toNat
  obtain ⟨hBall, hBne, hBval⟩ := natDigits_spec d.sides.toNat
  have htoList : (format_dice_expr d).toList = formatDiceChars d := rfl
  have hAe : (natDigits d.count.toNat).isEmpty = false := by
    cases hA : natDigits d.count.toNat with
    | nil => exact absurd hA hAne
    | cons x t => rfl
  have hcountval : (digitsToNat (natDigits d.count.toNat) : Int) = d.count := by
    rw [hAval]; omega
  have hsidesval : (digitsToNat (natDigits d.sides.toNat) : Int) = d.sides := by
    rw [hBval]; omega
  rcases lt_trichotomy d.modifier 0 with hm | hm | hm
  · -- negative modifier: rendered as digits, d, digits, -, digits
    obtain ⟨hDall, hDne, hDval⟩ := natDigits_spec d.modifier.natAbs
    have hfmt : formatDiceChars d =
        natDigits d.count.toNat ++ 'd' ::
          (natDigits d.sides.toNat ++ '-' :: natDigits d.modifier.natAbs) := by
      unfold formatDiceChars
      rw [if_neg (by omega), if_neg (by omega), pyIntChars_nonneg d.count (by omega),
        pyIntChars_nonneg d.sides (by omega), pyIntChars_neg d.modifier hm]
      simp
    have hstrip : pyStrip (format_dice_expr d).toList =
        natDigits d.count.toNat ++ 'd' ::
          (natDigits d.sides.toNat ++ '-' :: natDigits d.modifier.natAbs) := by
      rw [htoList, hfmt]
      apply pyStrip_no_space
      intro c hc
      rcases List.mem_append.mp hc with h | h
      · exact not_space_of_digit c (hAall c h)
      · rcases List.mem_cons.mp h with rfl | h
        · decide
        · rcases List.mem_append.mp h with h | h
          · exact not_space_of_digit c (hBall c h)
          · rcases List.mem_cons.mp h with rfl | h
            · decide
            · exact not_space_of_digit c (hDall c h)
    have hmatch : matchDiceExpr (pyStrip (format_dice_expr d).toList) =
        some ⟨natDigits d.count.toNat, natDigits d.sides.toNat,
          some ('-', natDigits d.modifier.natAbs), none⟩ := by
      rw [hstrip]
      exact matchDiceExpr_render_mod _ _ _ '-' hAall hBall hBne (Or.inr rfl) hDall hDne
    simp only [parse_dice_expr, hmatch, hAe, Bool.false_eq_true, if_false, hcountval, hsidesval]
    rw [if_neg (by omega), if_neg (not_lt.mpr hc2), if_neg (by omega), if_neg (not_lt.mpr hs2)]
    have hmodval : -(digitsToNat (natDigits d.modifier.natAbs) : Int) = d.modifier := by
      rw [hDval]; omega
    simp [hmodval]
  · -- zero modifier: rendered with no modifier clause
    have hfmt : formatDiceChars d =
        natDigits d.count.toNat ++ 'd' :: natDigits d.sides.toNat := by
      unfold formatDiceChars
      rw [if_pos hm, pyIntChars_nonneg d.count (by omega), pyIntChars_nonneg d.sides (by omega)]
    have hstrip : pyStrip (format_dice_expr d).toList =
        natDigits d.count.toNat ++ 'd' :: natDigits d.sides.toNat := by
      rw [htoList, hfmt]
      apply pyStrip_no_space
      intro c hc
      rcases List.mem_append.mp hc with h | h
      · exact not_space_of_digit c (hAall c h)
      · rcases List.mem_cons.mp h with rfl | h
        · decide
        · exact not_space_of_digit c (hBall c h)
    have hmatch : matchDiceExpr (pyStrip (format_dice_expr d).toList) =
        some ⟨natDigits d.count.toNat, natDigits d.sides.toNat, none, none⟩ := by
      rw [hstrip]
      exact matchDiceExpr_render_nomod _ _ hAall hBall hBne
    simp only [parse_dice_expr, hmatch, hAe, Bool.false_eq_true, if_false, hcountval, hsidesval]
    rw [if_neg (by omega), if_neg (not_lt.mpr hc2), if_neg (by omega), if_neg (not_lt.mpr hs2)]
    simp [hm]
  · -- positive modifier: rendered with an explicit plus sign
    obtain ⟨hDall, hDne, hDval⟩ := natDigits_spec d.modifier.toNat
    have hfmt : formatDiceChars d =
        natDigits d.count.toNat ++ 'd' ::
          (natDigits d.sides.toNat ++ '+' :: natDigits d.modifier.toNat) := by
      unfold formatDiceChars
      rw [if_neg (by omega), if_pos (by omega : (0 : Int) ≤ d.modifier),
        pyIntChars_nonneg d.count (by omega), pyIntChars_nonneg d.sides (by omega),
        pyIntChars_nonneg d.modifier (by omega)]
      simp
    have hstrip : pyStrip (format_dice_expr d).toList =
        natDigits d.count.toNat ++ 'd' ::
          (natDigits d.sides.toNat ++ '+' :: natDigits d.modifier.toNat) := by
      rw [htoList, hfmt]
      apply pyStrip_no_space
      intro c hc
      rcases List.mem_append.mp hc with h | h
      · exact not_space_of_digit c (hAall c h)
      · rcases List.mem_cons.mp h with rfl | h
        · decide
        · rcases List.mem_append.mp h with h | h
          · exact not_space_of_digit c (hBall c h)
          · rcases List.mem_cons.mp h with rfl | h
            · decide
            · exact not_space_of_digit c (hDall c h)
    have hmatch : matchDiceExpr (pyStrip (format_dice_expr d).toList) =
        some ⟨natDigits d.count.toNat, natDigits d.sides.toNat,
          some ('+', natDigits d.modifier.toNat), none⟩ := by
      rw [hstrip]
      exact matchDiceExpr_render_mod _ _ _ '+' hAall hBall hBne (Or.inl rfl) hDall hDne
    simp only [parse_dice_expr, hmatch, hAe, Bool.false_eq_true, if_false, hcountval, hsidesval]
    rw [if_neg (by omega), if_neg (not_lt.mpr hc2), if_neg (by omega), if_neg (not_lt.mpr hs2)]
    have hmodval : (digitsToNat (natDigits d.modifier.toNat) : Int) = d.modifier := by
      rw [hDval]; omega
    simp [hmodval]

/-- Witness for C9 at `3d8-2` with the default configuration. -/
theorem parse_format_round_trip_witness :
    parse_dice_expr
        (format_dice_expr { count := 3, sides := 8, modifier := -2, comparison := some ("<", 4) })
        defaultGuildConfig =
      .ok { count := 3, sides := 8, modifier := -2, comparison := none } :=
  parse_format_round_trip { count := 3, sides := 8, modifier := -2, comparison := some ("<", 4) }
    defaultGuildConfig (by decide) (by decide) (by decide) (by decide)

